import Mathlib

/-!
Shallow embedding of the secure-session core of the `constitute-nvr`
edge video recorder: the hello-proof HMAC check, X25519 + HKDF session-key
derivation, the XChaCha20-Poly1305 envelope codec, the websocket command
loop, and the segment storage listing.  Definitions are translated from
`src/crypto.rs`, `src/api.rs` and `src/storage.rs`; bytes are `Nat` values
below 256, strings are Lean `String`s.
-/

namespace NVR

/-! ### ASCII case folding (`str::eq_ignore_ascii_case`) -/

def asciiLower (c : Char) : Char :=
  if 'A' ≤ c ∧ c ≤ 'Z' then Char.ofNat (c.toNat + 32) else c

def eqIgnoreAsciiCase (a b : String) : Bool :=
  a.data.map asciiLower == b.data.map asciiLower

/-! ### Rust `str::trim` (Unicode `White_Space`) -/

def isRustWhitespace (c : Char) : Bool :=
  decide ((0x9 ≤ c.toNat ∧ c.toNat ≤ 0xd) ∨ c.toNat = 0x20 ∨ c.toNat = 0x85 ∨
    c.toNat = 0xa0 ∨ c.toNat = 0x1680 ∨ (0x2000 ≤ c.toNat ∧ c.toNat ≤ 0x200a) ∨
    c.toNat = 0x2028 ∨ c.toNat = 0x2029 ∨ c.toNat = 0x202f ∨ c.toNat = 0x205f ∨
    c.toNat = 0x3000)

def rustTrimList (l : List Char) : List Char :=
  ((l.dropWhile isRustWhitespace).reverse.dropWhile isRustWhitespace).reverse

def rustTrim (s : String) : String :=
  ⟨rustTrimList s.data⟩

/-! ### Hex encoding/decoding (`hex::encode`, `hex::decode`) -/

def hexDigitChar (n : Nat) : Char :=
  if n < 10 then Char.ofNat (48 + n) else Char.ofNat (97 + (n - 10))

def hexEncodeChars (bs : List Nat) : List Char :=
  bs.foldr (fun b acc => hexDigitChar (b / 16 % 16) :: hexDigitChar (b % 16) :: acc) []

def hexEncode (bs : List Nat) : String :=
  ⟨hexEncodeChars bs⟩

def hexVal (c : Char) : Option Nat :=
  if '0' ≤ c ∧ c ≤ '9' then some (c.toNat - 48)
  else if 'a' ≤ c ∧ c ≤ 'f' then some (c.toNat - 97 + 10)
  else if 'A' ≤ c ∧ c ≤ 'F' then some (c.toNat - 65 + 10)
  else none

def hexDecodeChars : List Char → Option (List Nat)
  | [] => some []
  | [_] => none
  | hi :: lo :: rest => do
      let h ← hexVal hi
      let l ← hexVal lo
      let tail ← hexDecodeChars rest
      some ((h * 16 + l) :: tail)

def hexDecode (s : String) : Option (List Nat) :=
  hexDecodeChars s.data

/-! ### Base64, standard alphabet with canonical padding
(`base64::engine::general_purpose::STANDARD`) -/

def b64Alphabet : List Char :=
  "ABCDEFGHIJKLMNOPQRSTUVWXYZabcdefghijklmnopqrstuvwxyz0123456789+/".data

def b64Char (n : Nat) : Char :=
  b64Alphabet.getD n 'A'

def b64Val (c : Char) : Option Nat :=
  b64Alphabet.findIdx? (· == c)

def b64EncodeChars : List Nat → List Char
  | [] => []
  | [a] => [b64Char (a / 4), b64Char (a % 4 * 16), '=', '=']
  | [a, b] => [b64Char (a / 4), b64Char (a % 4 * 16 + b / 16), b64Char (b % 16 * 4), '=']
  | a :: b :: c :: rest =>
      b64Char (a / 4) :: b64Char (a % 4 * 16 + b / 16) ::
      b64Char (b % 16 * 4 + c / 64) :: b64Char (c % 64) :: b64EncodeChars rest

def b64Encode (bs : List Nat) : String :=
  ⟨b64EncodeChars bs⟩

def b64DecodeChars : List Char → Option (List Nat)
  | [] => some []
  | a :: b :: c :: d :: rest =>
      if rest = [] ∧ c = '=' ∧ d = '=' then do
        let x ← b64Val a
        let y ← b64Val b
        if y % 16 = 0 then some [x * 4 + y / 16] else none
      else if rest = [] ∧ d = '=' then do
        let x ← b64Val a
        let y ← b64Val b
        let z ← b64Val c
        if z % 4 = 0 then some [x * 4 + y / 16, y % 16 * 16 + z / 4] else none
      else do
        let x ← b64Val a
        let y ← b64Val b
        let z ← b64Val c
        let w ← b64Val d
        let tail ← b64DecodeChars rest
        some ((x * 4 + y / 16) :: (y % 16 * 16 + z / 4) :: (z % 4 * 64 + w) :: tail)
  | _ => none

def b64Decode (s : String) : Option (List Nat) :=
  b64DecodeChars s.data

/-! ### List chunking (Rust `slice::chunks`), fuel-based so the kernel can evaluate it -/

def chunksOfAux (k : Nat) : Nat → List α → List (List α)
  | 0, _ => []
  | _, [] => []
  | fuel + 1, l => l.take k :: chunksOfAux k fuel (l.drop k)

def chunksOf (k : Nat) (l : List α) : List (List α) :=
  chunksOfAux k l.length l

/-! ### Byte/word conversions -/

def natToBytesBE : Nat → Nat → List Nat
  | _, 0 => []
  | n, w + 1 => natToBytesBE (n / 256) w ++ [n % 256]

def natToBytesLE : Nat → Nat → List Nat
  | _, 0 => []
  | n, w + 1 => n % 256 :: natToBytesLE (n / 256) w

def bytesToNatBE (bs : List Nat) : Nat :=
  bs.foldl (fun acc b => acc * 256 + b) 0

def bytesToNatLE (bs : List Nat) : Nat :=
  bs.foldr (fun b acc => acc * 256 + b) 0

def bytesToWordsBE (bs : List Nat) : List Nat :=
  (chunksOf 4 bs).map bytesToNatBE

def bytesToWordsLE (bs : List Nat) : List Nat :=
  (chunksOf 4 bs).map bytesToNatLE

/-! ### SHA-256 (the `sha2` crate), bytes as `Nat`, words mod 2^32 -/

def add32 (a b : Nat) : Nat :=
  (a + b) % 4294967296

def rotr32 (x n : Nat) : Nat :=
  x / 2 ^ n + x % 2 ^ n * 2 ^ (32 - n)

def not32 (x : Nat) : Nat :=
  4294967295 - x % 4294967296

structure Sha256State where
  a : Nat
  b : Nat
  c : Nat
  d : Nat
  e : Nat
  f : Nat
  g : Nat
  h : Nat

def sha256Init : Sha256State :=
  ⟨1779033703, 3144134277, 1013904242, 2773480762,
   1359893119, 2600822924, 528734635, 1541459225⟩

def sha256K : List Nat :=
  [1116352408, 1899447441, 3049323471, 3921009573, 961987163, 1508970993,
   2453635748, 2870763221, 3624381080, 310598401, 607225278, 1426881987,
   1925078388, 2162078206, 2614888103, 3248222580, 3835390401, 4022224774,
   264347078, 604807628, 770255983, 1249150122, 1555081692, 1996064986,
   2554220882, 2821834349, 2952996808, 3210313671, 3336571891, 3584528711,
   113926993, 338241895, 666307205, 773529912, 1294757372, 1396182291,
   1695183700, 1986661051, 2177026350, 2456956037, 2730485921, 2820302411,
   3259730800, 3345764771, 3516065817, 3600352804, 4094571909, 275423344,
   430227734, 506948616, 659060556, 883997877, 958139571, 1322822218,
   1537002063, 1747873779, 1955562222, 2024104815, 2227730452, 2361852424,
   2428436474, 2756734187, 3204031479, 3329325298]

def sha256ExtendAux : Nat → List Nat → List Nat
  | 0, ws => ws
  | fuel + 1, ws =>
      let w2 := ws.getD 1 0
      let w7 := ws.getD 6 0
      let w15 := ws.getD 14 0
      let w16 := ws.getD 15 0
      let s0 := rotr32 w15 7 ^^^ rotr32 w15 18 ^^^ w15 / 2 ^ 3
      let s1 := rotr32 w2 17 ^^^ rotr32 w2 19 ^^^ w2 / 2 ^ 10
      sha256ExtendAux fuel (((w16 + s0 + w7 + s1) % 4294967296) :: ws)

def sha256Schedule (block : List Nat) : List Nat :=
  (sha256ExtendAux 48 (bytesToWordsBE block).reverse).reverse

def sha256Round (st : Sha256State) (kw : Nat × Nat) : Sha256State :=
  let s1 := rotr32 st.e 6 ^^^ rotr32 st.e 11 ^^^ rotr32 st.e 25
  let ch := st.e &&& st.f ^^^ not32 st.e &&& st.g
  let t1 := (st.h + s1 + ch + kw.1 + kw.2) % 4294967296
  let s0 := rotr32 st.a 2 ^^^ rotr32 st.a 13 ^^^ rotr32 st.a 22
  let mj := st.a &&& st.b ^^^ st.a &&& st.c ^^^ st.b &&& st.c
  let t2 := (s0 + mj) % 4294967296
  ⟨(t1 + t2) % 4294967296, st.a, st.b, st.c, (st.d + t1) % 4294967296, st.e, st.f, st.g⟩

def sha256Block (st : Sha256State) (block : List Nat) : Sha256State :=
  let t := (sha256K.zip (sha256Schedule block)).foldl sha256Round st
  ⟨add32 st.a t.a, add32 st.b t.b, add32 st.c t.c, add32 st.d t.d,
   add32 st.e t.e, add32 st.f t.f, add32 st.g t.g, add32 st.h t.h⟩

def sha256Pad (msg : List Nat) : List Nat :=
  msg ++ 0x80 :: List.replicate ((119 - msg.length % 64) % 64) 0 ++
    natToBytesBE (msg.length * 8) 8

def sha256StateBytes (st : Sha256State) : List Nat :=
  natToBytesBE st.a 4 ++ natToBytesBE st.b 4 ++ natToBytesBE st.c 4 ++ natToBytesBE st.d 4 ++
  natToBytesBE st.e 4 ++ natToBytesBE st.f 4 ++ natToBytesBE st.g 4 ++ natToBytesBE st.h 4

def sha256 (msg : List Nat) : List Nat :=
  sha256StateBytes ((chunksOf 64 (sha256Pad msg)).foldl sha256Block sha256Init)

/-! ### HMAC-SHA256 (the `hmac` crate) and HKDF-SHA256 (the `hkdf` crate) -/

def hmacSha256 (key msg : List Nat) : List Nat :=
  let k0 := if 64 < key.length then sha256 key else key
  let kp := k0 ++ List.replicate (64 - k0.length) 0
  sha256 ((kp.map (fun b => b ^^^ 0x5c)) ++ sha256 ((kp.map (fun b => b ^^^ 0x36)) ++ msg))

def hkdfExtract (salt ikm : List Nat) : List Nat :=
  hmacSha256 salt ikm

def hkdfBlocksAux (prk info : List Nat) : Nat → List Nat → Nat → List Nat
  | 0, _, _ => []
  | fuel + 1, prev, i =>
      let t := hmacSha256 prk (prev ++ info ++ [i % 256])
      t ++ hkdfBlocksAux prk info fuel t (i + 1)

def hkdfExpand (prk info : List Nat) (l : Nat) : Option (List Nat) :=
  if 255 * 32 < l then none
  else some ((hkdfBlocksAux prk info ((l + 31) / 32) [] 1).take l)

/-! ### UTF-8 encoding of strings (Rust `str::as_bytes`) -/

def utf8Char (c : Char) : List Nat :=
  let n := c.toNat
  if n < 0x80 then [n]
  else if n < 0x800 then [0xc0 + n / 64, 0x80 + n % 64]
  else if n < 0x10000 then [0xe0 + n / 4096, 0x80 + n / 64 % 64, 0x80 + n % 64]
  else [0xf0 + n / 262144, 0x80 + n / 4096 % 64, 0x80 + n / 64 % 64, 0x80 + n % 64]

def utf8Bytes (s : String) : List Nat :=
  s.data.foldr (fun c acc => utf8Char c ++ acc) []

/-! ### ChaCha20 block function (RFC 8439) -/

def rotl32 (x n : Nat) : Nat :=
  (x % 4294967296) * 2 ^ n % 4294967296 + (x % 4294967296) / 2 ^ (32 - n)

def qround (s : List Nat) (ia ib ic id : Nat) : List Nat :=
  let a := add32 (s.getD ia 0) (s.getD ib 0)
  let d := rotl32 ((s.getD id 0) ^^^ a) 16
  let c := add32 (s.getD ic 0) d
  let b := rotl32 ((s.getD ib 0) ^^^ c) 12
  let a2 := add32 a b
  let d2 := rotl32 (d ^^^ a2) 8
  let c2 := add32 c d2
  let b2 := rotl32 (b ^^^ c2) 7
  (((s.set ia a2).set ib b2).set ic c2).set id d2

def chachaDoubleRound (s : List Nat) : List Nat :=
  qround (qround (qround (qround (qround (qround (qround (qround s
    0 4 8 12) 1 5 9 13) 2 6 10 14) 3 7 11 15)
    0 5 10 15) 1 6 11 12) 2 7 8 13) 3 4 9 14

def chachaRounds : Nat → List Nat → List Nat
  | 0, s => s
  | fuel + 1, s => chachaRounds fuel (chachaDoubleRound s)

def chachaConsts : List Nat :=
  [0x61707865, 0x3320646e, 0x79622d32, 0x6b206574]

def wordsToBytesLE (ws : List Nat) : List Nat :=
  ws.foldr (fun w acc => natToBytesLE w 4 ++ acc) []

def chachaBlockBytes (key : List Nat) (counter : Nat) (nonce12 : List Nat) : List Nat :=
  let init := chachaConsts ++ bytesToWordsLE key ++ (counter % 4294967296) :: bytesToWordsLE nonce12
  wordsToBytesLE ((chachaRounds 10 init).zipWith add32 init)

def hchacha20 (key nonce16 : List Nat) : List Nat :=
  let st := chachaRounds 10 (chachaConsts ++ bytesToWordsLE key ++ bytesToWordsLE nonce16)
  wordsToBytesLE (st.take 4 ++ (st.drop 12).take 4)

def chachaKeystreamAux (key nonce12 : List Nat) : Nat → Nat → List Nat
  | 0, _ => []
  | fuel + 1, counter =>
      chachaBlockBytes key counter nonce12 ++ chachaKeystreamAux key nonce12 fuel (counter + 1)

def chachaKeystream (key nonce12 : List Nat) (n : Nat) : List Nat :=
  (chachaKeystreamAux key nonce12 ((n + 63) / 64) 1).take n

/-! ### Poly1305 (RFC 8439) -/

def poly1305 (polykey msg : List Nat) : List Nat :=
  let r := bytesToNatLE (polykey.take 16) &&& 0x0ffffffc0ffffffc0ffffffc0fffffff
  let s := bytesToNatLE ((polykey.drop 16).take 16)
  let acc := (chunksOf 16 msg).foldl
    (fun acc chunk => (acc + bytesToNatLE chunk + 2 ^ (8 * chunk.length)) * r % (2 ^ 130 - 5)) 0
  natToBytesLE ((acc + s) % 2 ^ 128) 16

/-! ### ChaCha20-Poly1305 AEAD and the XChaCha20-Poly1305 construction
(the `chacha20poly1305` crate; ciphertext carries the 16-byte tag as suffix) -/

def pad16 (l : List Nat) : List Nat :=
  List.replicate ((16 - l.length % 16) % 16) 0

def chachaPolyMacData (aad ct : List Nat) : List Nat :=
  aad ++ pad16 aad ++ ct ++ pad16 ct ++ natToBytesLE aad.length 8 ++ natToBytesLE ct.length 8

def chacha20poly1305Encrypt (key nonce12 aad pt : List Nat) : List Nat :=
  let polykey := (chachaBlockBytes key 0 nonce12).take 32
  let ct := pt.zipWith Nat.xor (chachaKeystream key nonce12 pt.length)
  ct ++ poly1305 polykey (chachaPolyMacData aad ct)

def chacha20poly1305Decrypt (key nonce12 aad ctWithTag : List Nat) : Option (List Nat) :=
  if ctWithTag.length < 16 then none
  else
    let ct := ctWithTag.take (ctWithTag.length - 16)
    let tag := ctWithTag.drop (ctWithTag.length - 16)
    let polykey := (chachaBlockBytes key 0 nonce12).take 32
    if poly1305 polykey (chachaPolyMacData aad ct) = tag then
      some (ct.zipWith Nat.xor (chachaKeystream key nonce12 ct.length))
    else none

def xchachaEncrypt (key nonce24 aad pt : List Nat) : List Nat :=
  chacha20poly1305Encrypt (hchacha20 key (nonce24.take 16))
    ([0, 0, 0, 0] ++ nonce24.drop 16) aad pt

def xchachaDecrypt (key nonce24 aad ctWithTag : List Nat) : Option (List Nat) :=
  chacha20poly1305Decrypt (hchacha20 key (nonce24.take 16))
    ([0, 0, 0, 0] ++ nonce24.drop 16) aad ctWithTag

/-! ### X25519 (RFC 7748, as in `x25519-dalek`) -/

def p25519 : Nat :=
  2 ^ 255 - 19

def powModAux : Nat → Nat → Nat → Nat → Nat → Nat
  | 0, _, _, _, acc => acc
  | fuel + 1, b, e, m, acc =>
      if e = 0 then acc
      else powModAux fuel (b * b % m) (e / 2) m (if e % 2 = 1 then acc * b % m else acc)

def powMod (b e m : Nat) : Nat :=
  powModAux 300 (b % m) e m (1 % m)

def fInv25519 (x : Nat) : Nat :=
  powMod x (p25519 - 2) p25519

def cswap (swap a b : Nat) : Nat × Nat :=
  if swap = 1 then (b, a) else (a, b)

def ladderStep (x1 x2 z2 x3 z3 : Nat) : Nat × Nat × Nat × Nat :=
  let p := p25519
  let a := (x2 + z2) % p
  let aa := a * a % p
  let b := (x2 + p - z2 % p) % p
  let bb := b * b % p
  let e := (aa + p - bb) % p
  let c := (x3 + z3) % p
  let d := (x3 + p - z3 % p) % p
  let da := d * a % p
  let cb := c * b % p
  let x3n := (da + cb) % p * ((da + cb) % p) % p
  let z3n := x1 * ((da + p - cb) % p * ((da + p - cb) % p) % p) % p
  let x2n := aa * bb % p
  let z2n := e * ((aa + 121665 * e) % p) % p
  (x2n, z2n, x3n, z3n)

def ladderAux (k x1 : Nat) : Nat → (Nat × Nat × Nat × Nat × Nat) → Nat × Nat × Nat × Nat × Nat
  | 0, st => st
  | fuel + 1, (x2, z2, x3, z3, swap) =>
      let t := fuel
      let kt := k / 2 ^ t % 2
      let sw := (swap + kt) % 2
      let (x2s, x3s) := cswap sw x2 x3
      let (z2s, z3s) := cswap sw z2 z3
      let (x2n, z2n, x3n, z3n) := ladderStep x1 x2s z2s x3s z3s
      ladderAux k x1 fuel (x2n, z2n, x3n, z3n, kt)

def montgomeryLadder (k u : Nat) : Nat :=
  let x1 := u % p25519
  let (x2, z2, x3, z3, swap) := ladderAux k x1 255 (1, 0, x1, 1, 0)
  let (x2f, _) := cswap swap x2 x3
  let (z2f, _) := cswap swap z2 z3
  x2f * fInv25519 z2f % p25519

def clampScalarBytes (s : List Nat) : List Nat :=
  ((s.set 0 ((s.getD 0 0) &&& 248)).set 31 (((s.getD 31 0) &&& 127) ||| 64))

def x25519 (scalarBytes uBytes : List Nat) : List Nat :=
  let k := bytesToNatLE (clampScalarBytes scalarBytes)
  let u := bytesToNatLE uBytes % 2 ^ 255
  natToBytesLE (montgomeryLadder k u) 32

def x25519Base (scalarBytes : List Nat) : List Nat :=
  x25519 scalarBytes (natToBytesLE 9 32)

/-! ### `src/crypto.rs` -/

def SESSION_KEY_LEN : Nat := 32

/-- Model of `crypto::parse_hex_exact`: hex-decode the trimmed input and require an
exact byte length. -/
def parse_hex_exact (hexIn : String) (expectedLen : Nat) : Except String (List Nat) :=
  match hexDecode (rustTrim hexIn) with
  | none => .error "invalid hex"
  | some bytes =>
      if bytes.length ≠ expectedLen then
        .error ("expected " ++ toString expectedLen ++ " bytes, got " ++ toString bytes.length)
      else .ok bytes

/-- Model of `crypto::decode_b64_exact`: base64-decode the trimmed input and require an
exact byte length. -/
def decode_b64_exact (b64 : String) (expectedLen : Nat) : Except String (List Nat) :=
  match b64Decode (rustTrim b64) with
  | none => .error "invalid base64"
  | some bytes =>
      if bytes.length ≠ expectedLen then
        .error ("expected " ++ toString expectedLen ++ " bytes, got " ++ toString bytes.length)
      else .ok bytes

/-- The HMAC input material `identityId | devicePk | clientKey | decimal(ts)`
of `crypto::compute_hello_proof`, as UTF-8 bytes. -/
def helloMaterial (identity_id device_pk client_key_b64 : String) (ts : Nat) : List Nat :=
  utf8Bytes (identity_id ++ "|" ++ device_pk ++ "|" ++ client_key_b64 ++ "|" ++ toString ts)

/-- Model of `crypto::compute_hello_proof`. -/
def compute_hello_proof (identity_secret_hex identity_id device_pk client_key_b64 : String)
    (ts : Nat) : Except String String := do
  let key ← parse_hex_exact identity_secret_hex 32
  .ok (hexEncode (hmacSha256 key (helloMaterial identity_id device_pk client_key_b64 ts)))

/-- Model of `crypto::verify_hello_proof`: recompute the proof and compare
ASCII-case-insensitively. -/
def verify_hello_proof (identity_secret_hex identity_id device_pk client_key_b64 : String)
    (ts : Nat) (proof_hex : String) : Except String Bool := do
  let expected ← compute_hello_proof identity_secret_hex identity_id device_pk client_key_b64 ts
  .ok (eqIgnoreAsciiCase expected proof_hex)

/-- Model of `crypto::derive_session_key`: X25519 between the responder secret and the
client public key, then HKDF-SHA256 with the pairing (identity) secret as salt
and the context string as info; also returns the responder public key in
base64. -/
def derive_session_key (server_secret_hex identity_secret_hex client_key_b64 context : String) :
    Except String (List Nat × String) := do
  let serverSecret ← parse_hex_exact server_secret_hex 32
  let identitySecret ← parse_hex_exact identity_secret_hex 32
  let clientKey ← decode_b64_exact client_key_b64 32
  let shared := x25519 serverSecret clientKey
  match hkdfExpand (hkdfExtract identitySecret shared) (utf8Bytes context) SESSION_KEY_LEN with
  | none => .error "hkdf expand failed"
  | some out => .ok (out, b64Encode (x25519Base serverSecret))

/-- Model of `crypto::encrypt_payload`: XChaCha20-Poly1305 with no associated data,
rejecting session keys that are not 32 bytes.  The 24-byte nonce array of the
Rust signature is a byte list here; callers establish its length. -/
def encrypt_payload (session_key nonce plaintext : List Nat) : Except String (List Nat) :=
  if session_key.length ≠ SESSION_KEY_LEN then .error "invalid session key length"
  else .ok (xchachaEncrypt session_key nonce [] plaintext)

/-- Model of `crypto::decrypt_payload`. -/
def decrypt_payload (session_key nonce ciphertext : List Nat) : Except String (List Nat) :=
  if session_key.length ≠ SESSION_KEY_LEN then .error "invalid session key length"
  else
    match xchachaDecrypt session_key nonce [] ciphertext with
    | some pt => .ok pt
    | none => .error "decrypt failed"

/-! ### `src/storage.rs`: segment listing

The filesystem is modelled as the outcome of `read_dir` on the per-source
segment directory: absent, failing with a non-not-found I/O error, or a list
of directory entries in readdir order. -/

/-- Rust `str::ends_with`, via the character-list suffix test so that the
kernel can evaluate it. -/
def strEndsWith (s post : String) : Bool :=
  post.data.isSuffixOf s.data

structure SegmentEntry where
  name : String
  bytes : Nat
  modified_unix : Nat
deriving DecidableEq

structure DirEntry where
  name : String
  isFile : Bool
  size : Nat
  modified : Option Nat
deriving DecidableEq

inductive DirState where
  | notFound
  | ioError (msg : String)
  | entries (l : List DirEntry)

/-- The comparator of `list_segments`, `b.modified_unix.cmp(&a.modified_unix)`,
as a boolean "less or equal" for the stable sort: `a` may precede `b` exactly
when the comparator is not `Greater`. -/
def segRecentLE (a b : SegmentEntry) : Bool :=
  decide (b.modified_unix ≤ a.modified_unix)

/-- Model of `StorageManager::list_segments`: a missing directory yields an empty
listing, another I/O error propagates; otherwise keep regular `.cnv`/`.mp4`
files, sort by modification time descending (stable sort, as Rust `sort_by`),
and truncate to `max(limit, 1)`. -/
def list_segments (dir : DirState) (limit : Nat) : Except String (List SegmentEntry) :=
  match dir with
  | .notFound => .ok []
  | .ioError e => .error e
  | .entries l =>
      let out := (l.filter
          (fun e => e.isFile && (strEndsWith e.name ".cnv" || strEndsWith e.name ".mp4"))).map
        (fun e => { name := e.name, bytes := e.size, modified_unix := e.modified.getD 0 })
      .ok ((out.mergeSort segRecentLE).take (max limit 1))

/-! ### `src/api.rs`: data model -/

structure ApiCfg where
  identity_id : String
  authorized_device_pks : List String
  identity_secret_hex : String
  server_secret_hex : String

structure HelloReq where
  kind : String
  identity_id : String
  device_pk : String
  client_key : String
  ts : Nat
  proof : String

structure CipherEnvelope where
  kind : String
  nonce : String
  data : String

structure SourceUpsert where
  source_id : String
  name : String
  onvif_host : String
  onvif_port : Nat
  rtsp_url : String
  username : String
  password : String
  enabled : Bool
  segment_secs : Nat

structure CameraConfig where
  source_id : String
  name : String
  onvif_host : String
  onvif_port : Nat
  rtsp_url : String
  username : String
  password : String
  enabled : Bool
  segment_secs : Nat
deriving DecidableEq

inductive ClientCommand where
  | listSources
  | listSourceStates
  | discoverOnvif
  | upsertSource (source : SourceUpsert)
  | removeSource (source_id : String)
  | listSegments (source_id : String) (limit : Option Nat)
  | getSegment (source_id : String) (name : String)

/-- Model of `SourceUpsert::into_camera`: validation and normalization of an
`upsert_source` request. -/
def SourceUpsert.into_camera (s : SourceUpsert) : Except String CameraConfig :=
  if rustTrim s.source_id = "" then .error "sourceId is required"
  else if rustTrim s.rtsp_url = "" then .error "rtsp_url is required"
  else if rustTrim s.onvif_host = "" then .error "onvif_host is required"
  else .ok
    { source_id := rustTrim s.source_id
      name := if rustTrim s.name = "" then rustTrim s.source_id else rustTrim s.name
      onvif_host := rustTrim s.onvif_host
      onvif_port := s.onvif_port
      rtsp_url := rustTrim s.rtsp_url
      username := s.username
      password := s.password
      enabled := s.enabled
      segment_secs := max s.segment_secs 2 }

/-- Rust `u64::abs_diff`. -/
def absDiff (a b : Nat) : Nat :=
  if a < b then b - a else a - b

/-- Model of `api::validate_hello`.  The wall clock (`util::now_unix_seconds`) is an
explicit parameter. -/
def validate_hello (now : Nat) (cfg : ApiCfg) (hello : HelloReq) : Except String Unit :=
  if hello.identity_id ≠ cfg.identity_id then .error "identity mismatch"
  else if cfg.authorized_device_pks ≠ [] ∧ hello.device_pk ∉ cfg.authorized_device_pks then
    .error "device is not authorized for this identity"
  else if 300 < absDiff now hello.ts then .error "hello timestamp outside allowed skew"
  else
    match verify_hello_proof cfg.identity_secret_hex hello.identity_id hello.device_pk
        hello.client_key hello.ts hello.proof with
    | .error e => .error e
    | .ok true => .ok ()
    | .ok false => .error "invalid hello proof"

/-! ### `src/api.rs`: command router and authenticated connection loop

Collaborator calls (storage, recorder, discovery, config persistence) and the
two `serde_json` decoders are external to the core; their outcomes are inputs
of the model.  One `Reply` value corresponds to one `send_cipher_json` call,
i.e. one encrypted outbound frame. -/

inductive Reply where
  | errorReply (message : String)
  | listSourcesOk (sources : List String)
  | listSourceStatesOk (states : List String)
  | discoverOk (cameras : List String)
  | upsertOk (source : CameraConfig)
  | removeOk (source_id : String) (removed : Bool)
  | listSegmentsOk (source_id : String) (segments : List SegmentEntry)
  | segmentStart (source_id : String) (name : String) (bytes : Nat)
  | segmentChunk (seq : Nat) (data : String)
  | segmentEnd (name : String)
deriving DecidableEq

structure Collab where
  listSourcesRes : Except String (List String)
  listStatesRes : List String
  discoverRes : Except String (List String)
  persistRes : Except String Unit
  cfgHas : String → Bool
  runtimeRemoved : String → Bool
  dirOf : String → DirState
  readSeg : String → String → Except String (List Nat)

/-- The frames emitted for one `get_segment` command: `segment_start`, one
`segment_chunk` per 48·1024-byte slice, `segment_end`. -/
def segmentReplies (source_id name : String) (data : List Nat) : List Reply :=
  Reply.segmentStart source_id name data.length ::
    (chunksOf 49152 data).enum.map (fun p => Reply.segmentChunk p.1 (b64Encode p.2)) ++
    [Reply.segmentEnd name]

/-- Model of `api::handle_command`: dispatch one decoded command, producing the ordered
list of encrypted replies, or an error that the caller turns into a single
encrypted error reply. -/
def handle_command (C : Collab) : ClientCommand → Except String (List Reply)
  | .listSources => do
      let sources ← C.listSourcesRes
      .ok [.listSourcesOk sources]
  | .listSourceStates => .ok [.listSourceStatesOk C.listStatesRes]
  | .discoverOnvif => do
      let found ← C.discoverRes
      .ok [.discoverOk found]
  | .upsertSource source => do
      let cam ← source.into_camera
      let _ ← C.persistRes
      .ok [.upsertOk cam]
  | .removeSource sid =>
      if C.cfgHas sid then do
        let _ ← C.persistRes
        .ok [.removeOk sid (true || C.runtimeRemoved sid)]
      else .ok [.removeOk sid (false || C.runtimeRemoved sid)]
  | .listSegments sid limit => do
      let segments ← list_segments (C.dirOf sid) (limit.getD 30)
      .ok [.listSegmentsOk sid segments]
  | .getSegment sid name => do
      let data ← C.readSeg sid name
      .ok (segmentReplies sid name data)

structure Decoders where
  envelope : String → Option CipherEnvelope
  command : List Nat → Option ClientCommand

/-- The envelope-processing chain of the authenticated read loop in
`api::handle_ws`: JSON-decode the envelope, check the `cipher` tag,
base64-decode nonce and data, check the 24-byte nonce length, AEAD-decrypt,
JSON-decode the command.  Each failure carries the error string the loop
sends. -/
def processEnvelope (D : Decoders) (key : List Nat) (text : String) :
    Except String ClientCommand :=
  match D.envelope text with
  | none => .error "invalid cipher envelope"
  | some env =>
      if env.kind ≠ "cipher" then .error "expected cipher envelope"
      else
        match b64Decode env.nonce with
        | none => .error "invalid nonce encoding"
        | some nonce_bytes =>
            if nonce_bytes.length ≠ 24 then .error "invalid nonce length"
            else
              match b64Decode env.data with
              | none => .error "invalid cipher data"
              | some cipher =>
                  match decrypt_payload key nonce_bytes cipher with
                  | .error _ => .error "decrypt failed"
                  | .ok plain =>
                      match D.command plain with
                      | none => .error "invalid command payload"
                      | some cmd => .ok cmd

inductive InboundFrame where
  | text (t : String)
  | binary
  | ping
  | pong
  | close
  | streamEnd
  | transportError

inductive ConnState where
  | authenticated
  | closed
deriving DecidableEq

/-- One iteration of the authenticated `while let` loop of `api::handle_ws`:
the next connection state and the replies sent for this inbound frame. -/
def stepAuth (D : Decoders) (C : Collab) (key : List Nat) :
    InboundFrame → ConnState × List Reply
  | .close => (.closed, [])
  | .streamEnd => (.closed, [])
  | .transportError => (.closed, [])
  | .binary => (.authenticated, [])
  | .ping => (.authenticated, [])
  | .pong => (.authenticated, [])
  | .text t =>
      match processEnvelope D key t with
      | .error e => (.authenticated, [.errorReply e])
      | .ok cmd =>
          match handle_command C cmd with
          | .error e => (.authenticated, [.errorReply e])
          | .ok replies => (.authenticated, replies)

/-! ### Concrete sample values used by the witness theorems -/

def sampleSecretHex : String :=
  "1111111111111111111111111111111111111111111111111111111111111111"

def samplePairingHex : String :=
  "2222222222222222222222222222222222222222222222222222222222222222"

def sampleClientKeyB64 : String :=
  "AQEBAQEBAQEBAQEBAQEBAQEBAQEBAQEBAQEBAQEBAQE="

def sampleKeyBytes : List Nat :=
  List.replicate 32 17

def samplePairingBytes : List Nat :=
  List.replicate 32 34

def sampleClientKeyBytes : List Nat :=
  List.replicate 32 1

def c3Key : List Nat :=
  List.replicate 32 7

def c3Key2 : List Nat :=
  List.replicate 32 8

def c3Nonce : List Nat :=
  List.replicate 24 3

def c3Nonce2 : List Nat :=
  5 :: List.replicate 23 3

def c3Pt : List Nat :=
  [42]

def c3Ct : List Nat :=
  xchachaEncrypt c3Key c3Nonce [] c3Pt

def noCollab : Collab :=
  { listSourcesRes := .ok []
    listStatesRes := []
    discoverRes := .ok []
    persistRes := .ok ()
    cfgHas := fun _ => false
    runtimeRemoved := fun _ => false
    dirOf := fun _ => .notFound
    readSeg := fun _ _ => .error "segment not found" }

def sampleDirEntries : List DirEntry :=
  [⟨"a.mp4", true, 100, some 50⟩, ⟨"junk.txt", true, 5, some 99⟩]

def segCollab : Collab :=
  { noCollab with dirOf := fun _ => .entries sampleDirEntries }

def noDecoders : Decoders :=
  { envelope := fun _ => none, command := fun _ => none }

def sampleUpsert : SourceUpsert :=
  ⟨" cam1 ", "  ", "host", 80, "rtsp://host/stream", "", "", true, 0⟩

def badUpsert : SourceUpsert :=
  ⟨"  ", "n", "host", 80, "rtsp://host/stream", "", "", true, 9⟩

def sampleCfg : ApiCfg :=
  ⟨"id", [], sampleSecretHex, samplePairingHex⟩

def sampleHello (ts : Nat) : HelloReq :=
  ⟨"hello", "id", "dev", sampleClientKeyB64, ts, "00"⟩

/-! ## Lemmas: base64 -/

theorem b64Val_b64Char : ∀ n, n < 64 → b64Val (b64Char n) = some n := by decide

theorem b64Char_ne_pad : ∀ n, n < 64 → b64Char n ≠ '=' := by decide

theorem b64_roundtrip :
    ∀ bs : List Nat, (∀ x ∈ bs, x < 256) → b64DecodeChars (b64EncodeChars bs) = some bs
  | [], _ => rfl
  | [a], h => by
      have ha : a < 256 := h a (by simp)
      simp only [b64EncodeChars, b64DecodeChars]
      rw [if_pos (by simp)]
      rw [b64Val_b64Char _ (by omega : a / 4 < 64),
        b64Val_b64Char _ (by omega : a % 4 * 16 < 64)]
      simp only [Option.bind_eq_bind, Option.some_bind]
      rw [if_pos (by omega : a % 4 * 16 % 16 = 0)]
      have : a / 4 * 4 + a % 4 * 16 / 16 = a := by omega
      rw [this]
  | [a, b], h => by
      have ha : a < 256 := h a (by simp)
      have hb : b < 256 := h b (by simp)
      simp only [b64EncodeChars, b64DecodeChars]
      rw [if_neg (by
        intro hcon
        exact b64Char_ne_pad (b % 16 * 4) (by omega) hcon.2.1)]
      rw [if_pos (by simp)]
      rw [b64Val_b64Char _ (by omega : a / 4 < 64),
        b64Val_b64Char _ (by omega : a % 4 * 16 + b / 16 < 64),
        b64Val_b64Char _ (by omega : b % 16 * 4 < 64)]
      simp only [Option.bind_eq_bind, Option.some_bind]
      rw [if_pos (by omega : b % 16 * 4 % 4 = 0)]
      have h1 : a / 4 * 4 + (a % 4 * 16 + b / 16) / 16 = a := by omega
      have h2 : (a % 4 * 16 + b / 16) % 16 * 16 + b % 16 * 4 / 4 = b := by omega
      rw [h1, h2]
  | [a, b, c], h => by
      have ha : a < 256 := h a (by simp)
      have hb : b < 256 := h b (by simp)
      have hc : c < 256 := h c (by simp)
      simp only [b64EncodeChars, b64DecodeChars]
      rw [if_neg (by
        intro hcon
        exact b64Char_ne_pad (b % 16 * 4 + c / 64) (by omega) hcon.2.1)]
      rw [if_neg (by
        intro hcon
        exact b64Char_ne_pad (c % 64) (by omega) hcon.2)]
      rw [b64Val_b64Char _ (by omega : a / 4 < 64),
        b64Val_b64Char _ (by omega : a % 4 * 16 + b / 16 < 64),
        b64Val_b64Char _ (by omega : b % 16 * 4 + c / 64 < 64),
        b64Val_b64Char _ (by omega : c % 64 < 64)]
      simp only [Option.bind_eq_bind, Option.some_bind]
      have h1 : a / 4 * 4 + (a % 4 * 16 + b / 16) / 16 = a := by omega
      have h2 : (a % 4 * 16 + b / 16) % 16 * 16 + (b % 16 * 4 + c / 64) / 4 = b := by omega
      have h3 : (b % 16 * 4 + c / 64) % 4 * 64 + c % 64 = c := by omega
      rw [h1, h2, h3]
  | a :: b :: c :: d :: rest, h => by
      have ha : a < 256 := h a (by simp)
      have hb : b < 256 := h b (by simp)
      have hc : c < 256 := h c (by simp)
      have htail : ∀ x ∈ d :: rest, x < 256 := fun x hx => h x (by simp at hx ⊢; tauto)
      have ih := b64_roundtrip (d :: rest) htail
      simp only [b64EncodeChars, b64DecodeChars]
      rw [if_neg (by
        intro hcon
        exact b64Char_ne_pad (b % 16 * 4 + c / 64) (by omega) hcon.2.1)]
      rw [if_neg (by
        intro hcon
        exact b64Char_ne_pad (c % 64) (by omega) hcon.2)]
      rw [b64Val_b64Char _ (by omega : a / 4 < 64),
        b64Val_b64Char _ (by omega : a % 4 * 16 + b / 16 < 64),
        b64Val_b64Char _ (by omega : b % 16 * 4 + c / 64 < 64),
        b64Val_b64Char _ (by omega : c % 64 < 64)]
      simp only [Option.bind_eq_bind, Option.some_bind]
      rw [ih]
      simp only [Option.bind_eq_bind, Option.some_bind]
      have h1 : a / 4 * 4 + (a % 4 * 16 + b / 16) / 16 = a := by omega
      have h2 : (a % 4 * 16 + b / 16) % 16 * 16 + (b % 16 * 4 + c / 64) / 4 = b := by omega
      have h3 : (b % 16 * 4 + c / 64) % 4 * 64 + c % 64 = c := by omega
      rw [h1, h2, h3]

theorem b64Decode_b64Encode (bs : List Nat) (h : ∀ x ∈ bs, x < 256) :
    b64Decode (b64Encode bs) = some bs :=
  b64_roundtrip bs h

/-! ## Lemmas: chunking -/

theorem chunksOfAux_flatten {α : Type} (k : Nat) (hk : 0 < k) :
    ∀ (fuel : Nat) (l : List α), l.length ≤ fuel → (chunksOfAux k fuel l).flatten = l := by
  intro fuel
  induction fuel with
  | zero =>
      intro l hl
      have : l = [] := List.eq_nil_of_length_eq_zero (Nat.le_zero.mp hl)
      simp [this, chunksOfAux]
  | succ n ih =>
      intro l hl
      cases l with
      | nil => simp [chunksOfAux]
      | cons x xs =>
          simp only [chunksOfAux, List.flatten_cons]
          rw [ih ((x :: xs).drop k) (by simp only [List.length_drop, List.length_cons] at hl ⊢; omega)]
          exact List.take_append_drop k (x :: xs)

theorem chunksOfAux_length {α : Type} (k : Nat) (hk : 0 < k) :
    ∀ (fuel : Nat) (l : List α), l.length ≤ fuel →
      (chunksOfAux k fuel l).length = (l.length + k - 1) / k := by
  intro fuel
  induction fuel with
  | zero =>
      intro l hl
      have hnil : l = [] := List.eq_nil_of_length_eq_zero (Nat.le_zero.mp hl)
      subst hnil
      simp only [chunksOfAux, List.length_nil]
      rw [Nat.div_eq_of_lt (by omega)]
  | succ n ih =>
      intro l hl
      cases l with
      | nil =>
          simp only [chunksOfAux, List.length_nil]
          rw [Nat.div_eq_of_lt (by omega)]
      | cons x xs =>
          simp only [chunksOfAux, List.length_cons]
          rw [ih ((x :: xs).drop k) (by simp only [List.length_drop, List.length_cons] at hl ⊢; omega)]
          simp only [List.length_drop, List.length_cons]
          rcases Nat.lt_or_ge (xs.length + 1) k with hlt | hge
          · have h0 : xs.length + 1 - k = 0 := by omega
            rw [h0]
            rw [Nat.div_eq_of_lt (by omega : 0 + k - 1 < k)]
            rw [Nat.div_eq_of_lt_le (by omega : 1 * k ≤ xs.length + 1 + k - 1)
              (by omega : xs.length + 1 + k - 1 < (1 + 1) * k)]
          · rw [← Nat.add_div_right (xs.length + 1 - k + k - 1) hk]
            congr 1
            omega

theorem chunksOf_flatten {α : Type} (k : Nat) (hk : 0 < k) (l : List α) :
    (chunksOf k l).flatten = l :=
  chunksOfAux_flatten k hk l.length l (Nat.le_refl _)

theorem chunksOf_length {α : Type} (k : Nat) (hk : 0 < k) (l : List α) :
    (chunksOf k l).length = (l.length + k - 1) / k :=
  chunksOfAux_length k hk l.length l (Nat.le_refl _)

theorem chunksOf_mem {α : Type} (k : Nat) (hk : 0 < k) (l : List α) (c : List α)
    (hc : c ∈ chunksOf k l) : ∀ x ∈ c, x ∈ l := by
  intro x hx
  rw [← chunksOf_flatten k hk l]
  exact List.mem_flatten.mpr ⟨c, hc, hx⟩

/-! ## Lemmas: lengths in the ChaCha20 pipeline -/

theorem length_natToBytesLE : ∀ n w, (natToBytesLE n w).length = w := by
  intro n w
  induction w generalizing n with
  | zero => rfl
  | succ v ih => simp [natToBytesLE, ih]

theorem length_natToBytesBE : ∀ n w, (natToBytesBE n w).length = w := by
  intro n w
  induction w generalizing n with
  | zero => rfl
  | succ v ih => simp [natToBytesBE, ih]

theorem length_wordsToBytesLE (ws : List Nat) : (wordsToBytesLE ws).length = 4 * ws.length := by
  induction ws with
  | nil => rfl
  | cons w rest ih =>
      simp only [wordsToBytesLE, List.foldr_cons, List.length_append, length_natToBytesLE,
        List.length_cons]
      simp only [wordsToBytesLE] at ih
      omega

theorem length_bytesToWordsLE (bs : List Nat) :
    (bytesToWordsLE bs).length = (bs.length + 3) / 4 := by
  simp [bytesToWordsLE, chunksOf_length 4 (by omega)]

theorem length_qround (s : List Nat) (ia ib ic id : Nat) :
    (qround s ia ib ic id).length = s.length := by
  simp [qround]

theorem length_chachaDoubleRound (s : List Nat) :
    (chachaDoubleRound s).length = s.length := by
  simp [chachaDoubleRound, length_qround]

theorem length_chachaRounds : ∀ (f : Nat) (s : List Nat),
    (chachaRounds f s).length = s.length := by
  intro f
  induction f with
  | zero => intro s; rfl
  | succ n ih =>
      intro s
      simp [chachaRounds, ih, length_chachaDoubleRound]

theorem length_chachaBlockBytes (key : List Nat) (counter : Nat) (nonce12 : List Nat)
    (hk : key.length = 32) (hn : nonce12.length = 12) :
    (chachaBlockBytes key counter nonce12).length = 64 := by
  simp only [chachaBlockBytes, length_wordsToBytesLE, List.length_zipWith, length_chachaRounds]
  simp [List.length_append, length_bytesToWordsLE, hk, hn, chachaConsts]

theorem length_hchacha20 (key nonce16 : List Nat) (hk : key.length = 32)
    (hn : nonce16.length = 16) : (hchacha20 key nonce16).length = 32 := by
  simp only [hchacha20, length_wordsToBytesLE, List.length_append, List.length_take,
    List.length_drop, length_chachaRounds]
  simp only [List.length_append, length_bytesToWordsLE, hk, hn, chachaConsts]
  simp

theorem length_chachaKeystreamAux (key nonce12 : List Nat) (hk : key.length = 32)
    (hn : nonce12.length = 12) :
    ∀ (fuel ctr : Nat), (chachaKeystreamAux key nonce12 fuel ctr).length = 64 * fuel := by
  intro fuel
  induction fuel with
  | zero => intro ctr; rfl
  | succ n ih =>
      intro ctr
      simp only [chachaKeystreamAux, List.length_append,
        length_chachaBlockBytes key ctr nonce12 hk hn, ih]
      omega

theorem length_chachaKeystream (key nonce12 : List Nat) (n : Nat) (hk : key.length = 32)
    (hn : nonce12.length = 12) : (chachaKeystream key nonce12 n).length = n := by
  simp only [chachaKeystream, List.length_take, length_chachaKeystreamAux key nonce12 hk hn]
  omega

theorem length_poly1305 (polykey msg : List Nat) : (poly1305 polykey msg).length = 16 := by
  simp [poly1305, length_natToBytesLE]

theorem zipWith_xor_cancel :
    ∀ (p ks : List Nat), p.length = ks.length →
      (p.zipWith Nat.xor ks).zipWith Nat.xor ks = p := by
  intro p
  induction p with
  | nil => intro ks _; rfl
  | cons a rest ih =>
      intro ks hlen
      cases ks with
      | nil => simp at hlen
      | cons b ktl =>
          simp only [List.zipWith_cons_cons]
          have hx : Nat.xor (Nat.xor a b) b = a := Nat.xor_cancel_right b a
          rw [hx, ih ktl (by simpa using hlen)]

/-! ## Lemmas: AEAD round-trip -/

theorem aead_roundtrip (key nonce12 aad pt : List Nat) (hk : key.length = 32)
    (hn : nonce12.length = 12) :
    chacha20poly1305Decrypt key nonce12 aad (chacha20poly1305Encrypt key nonce12 aad pt) =
      some pt := by
  have hks : (chachaKeystream key nonce12 pt.length).length = pt.length :=
    length_chachaKeystream key nonce12 pt.length hk hn
  have hct : (pt.zipWith Nat.xor (chachaKeystream key nonce12 pt.length)).length = pt.length := by
    simp [List.length_zipWith, hks]
  simp only [chacha20poly1305Encrypt, chacha20poly1305Decrypt]
  have htag : (poly1305 ((chachaBlockBytes key 0 nonce12).take 32)
      (chachaPolyMacData aad (pt.zipWith Nat.xor (chachaKeystream key nonce12 pt.length)))).length
      = 16 := length_poly1305 _ _
  rw [if_neg (by simp only [List.length_append, hct, htag]; omega)]
  have hsub : (pt.zipWith Nat.xor (chachaKeystream key nonce12 pt.length) ++
      poly1305 ((chachaBlockBytes key 0 nonce12).take 32)
        (chachaPolyMacData aad (pt.zipWith Nat.xor (chachaKeystream key nonce12 pt.length)))).length
      - 16 = (pt.zipWith Nat.xor (chachaKeystream key nonce12 pt.length)).length := by
    simp only [List.length_append, htag]
    omega
  rw [hsub, List.take_left, List.drop_left, if_pos rfl, hct]
  exact congrArg some (zipWith_xor_cancel pt (chachaKeystream key nonce12 pt.length) hks.symm)

theorem xchacha_roundtrip (key nonce24 aad pt : List Nat) (hk : key.length = 32)
    (hn : nonce24.length = 24) :
    xchachaDecrypt key nonce24 aad (xchachaEncrypt key nonce24 aad pt) = some pt := by
  apply aead_roundtrip
  · exact length_hchacha20 key (nonce24.take 16) hk (by simp [hn])
  · simp [hn]

theorem payload_roundtrip (key nonce pt : List Nat) (hk : key.length = 32)
    (hn : nonce.length = 24) :
    decrypt_payload key nonce (xchachaEncrypt key nonce [] pt) = .ok pt ∧
      encrypt_payload key nonce pt = .ok (xchachaEncrypt key nonce [] pt) := by
  constructor
  · simp only [decrypt_payload, SESSION_KEY_LEN]
    rw [if_neg (by omega)]
    rw [xchacha_roundtrip key nonce [] pt hk hn]
  · simp only [encrypt_payload, SESSION_KEY_LEN]
    rw [if_neg (by omega)]

/-! ## Lemmas: tampering with the authenticator bytes always fails -/

theorem aead_tag_tamper (key nonce12 aad pt tag2 : List Nat) (hk : key.length = 32)
    (hn : nonce12.length = 12) (ht : tag2.length = 16)
    (hne : tag2 ≠ (chacha20poly1305Encrypt key nonce12 aad pt).drop pt.length) :
    chacha20poly1305Decrypt key nonce12 aad
      ((chacha20poly1305Encrypt key nonce12 aad pt).take pt.length ++ tag2) = none := by
  have hks : (chachaKeystream key nonce12 pt.length).length = pt.length :=
    length_chachaKeystream key nonce12 pt.length hk hn
  have hct : (pt.zipWith Nat.xor (chachaKeystream key nonce12 pt.length)).length = pt.length := by
    simp [List.length_zipWith, hks]
  simp only [chacha20poly1305Encrypt] at hne ⊢
  rw [List.take_left' hct] at *
  rw [List.drop_left' hct] at hne
  simp only [chacha20poly1305Decrypt]
  rw [if_neg (by simp only [List.length_append, ht]; omega)]
  have hsub : (pt.zipWith Nat.xor (chachaKeystream key nonce12 pt.length) ++ tag2).length - 16 =
      (pt.zipWith Nat.xor (chachaKeystream key nonce12 pt.length)).length := by
    simp only [List.length_append, ht]
    omega
  rw [hsub, List.take_left, List.drop_left]
  rw [if_neg (fun h => hne h.symm)]

theorem payload_tag_tamper (key nonce pt tag2 : List Nat) (hk : key.length = 32)
    (hn : nonce.length = 24) (ht : tag2.length = 16)
    (hne : tag2 ≠ (xchachaEncrypt key nonce [] pt).drop pt.length) :
    decrypt_payload key nonce ((xchachaEncrypt key nonce [] pt).take pt.length ++ tag2) =
      .error "decrypt failed" := by
  simp only [decrypt_payload, SESSION_KEY_LEN]
  rw [if_neg (by omega)]
  rw [show xchachaDecrypt key nonce []
        ((xchachaEncrypt key nonce [] pt).take pt.length ++ tag2) =
      chacha20poly1305Decrypt (hchacha20 key (nonce.take 16)) ([0, 0, 0, 0] ++ nonce.drop 16) []
        ((chacha20poly1305Encrypt (hchacha20 key (nonce.take 16))
          ([0, 0, 0, 0] ++ nonce.drop 16) [] pt).take pt.length ++ tag2) from rfl]
  rw [aead_tag_tamper _ _ _ _ _ (length_hchacha20 key (nonce.take 16) hk (by simp [hn]))
    (by simp [hn]) ht hne]

/-! ## Lemmas: hash output lengths and HKDF expansion at 32 bytes -/

theorem length_sha256StateBytes (st : Sha256State) : (sha256StateBytes st).length = 32 := by
  simp [sha256StateBytes, length_natToBytesBE]

theorem length_sha256 (msg : List Nat) : (sha256 msg).length = 32 :=
  length_sha256StateBytes _

theorem length_hmacSha256 (key msg : List Nat) : (hmacSha256 key msg).length = 32 :=
  length_sha256 _

theorem hkdfExpand_32 (prk info : List Nat) :
    hkdfExpand prk info 32 = some ((hmacSha256 prk (info ++ [1])).take 32) ∧
      ((hmacSha256 prk (info ++ [1])).take 32).length = 32 := by
  constructor
  · simp only [hkdfExpand]
    rw [if_neg (by omega)]
    norm_num
    simp [hkdfBlocksAux]
  · simp [List.length_take, length_hmacSha256]

/-! ## Lemmas: case-insensitive equality is reflexive -/

theorem eqIgnoreAsciiCase_refl (s : String) : eqIgnoreAsciiCase s s = true := by
  simp [eqIgnoreAsciiCase]

/-! ## Claim theorems -/

/-- C1: given a pairing secret that parses to 32 bytes, `verify_hello_proof`
returns `true` exactly when the supplied proof equals, under ASCII-case-
insensitive comparison, the hex encoding of HMAC-SHA256 keyed by the secret
over `identityId | devicePk | clientKey | decimal(ts)`; in particular,
`compute_hello_proof` on the same inputs produces exactly that hex string and
verifying its output yields `true`. -/
theorem c1_verify_hello_proof_hmac (secret idt dev ck proof : String) (ts : Nat)
    (key : List Nat) (hkey : parse_hex_exact secret 32 = .ok key) :
    verify_hello_proof secret idt dev ck ts proof =
      .ok (eqIgnoreAsciiCase (hexEncode (hmacSha256 key (helloMaterial idt dev ck ts))) proof) ∧
    compute_hello_proof secret idt dev ck ts =
      .ok (hexEncode (hmacSha256 key (helloMaterial idt dev ck ts))) ∧
    (∀ pf, compute_hello_proof secret idt dev ck ts = .ok pf →
      verify_hello_proof secret idt dev ck ts pf = .ok true) := by
  have hc : compute_hello_proof secret idt dev ck ts =
      .ok (hexEncode (hmacSha256 key (helloMaterial idt dev ck ts))) := by
    simp [compute_hello_proof, hkey, Bind.bind, Except.bind]
  refine ⟨?_, hc, ?_⟩
  · simp [verify_hello_proof, hc, Bind.bind, Except.bind]
  · intro pf hpf
    rw [hc] at hpf
    cases hpf
    simp [verify_hello_proof, hc, Bind.bind, Except.bind, eqIgnoreAsciiCase_refl]

theorem c1_verify_hello_proof_hmac_witness :
    parse_hex_exact sampleSecretHex 32 = .ok sampleKeyBytes ∧
    (verify_hello_proof sampleSecretHex "id" "dev" "abcd" 10 "00" =
      .ok (eqIgnoreAsciiCase
        (hexEncode (hmacSha256 sampleKeyBytes (helloMaterial "id" "dev" "abcd" 10))) "00") ∧
    compute_hello_proof sampleSecretHex "id" "dev" "abcd" 10 =
      .ok (hexEncode (hmacSha256 sampleKeyBytes (helloMaterial "id" "dev" "abcd" 10))) ∧
    (∀ pf, compute_hello_proof sampleSecretHex "id" "dev" "abcd" 10 = .ok pf →
      verify_hello_proof sampleSecretHex "id" "dev" "abcd" 10 pf = .ok true)) :=
  ⟨rfl, c1_verify_hello_proof_hmac sampleSecretHex "id" "dev" "abcd" "00" 10 sampleKeyBytes rfl⟩

/-- C2: `derive_session_key` fails exactly when one of its three key inputs
fails to decode to 32 bytes; on success it returns the 32-byte
HKDF-SHA256(salt = pairing secret, ikm = X25519(server secret, client key),
info = context) key together with the base64 responder public key. -/
theorem c2_derive_session_key_errors (ssh ish ckb ctx : String) :
    ((derive_session_key ssh ish ckb ctx).isOk = false ↔
      ((parse_hex_exact ssh 32).isOk = false ∨ (parse_hex_exact ish 32).isOk = false ∨
        (decode_b64_exact ckb 32).isOk = false)) ∧
    (∀ a b c, parse_hex_exact ssh 32 = .ok a → parse_hex_exact ish 32 = .ok b →
      decode_b64_exact ckb 32 = .ok c →
      ∃ okm, derive_session_key ssh ish ckb ctx = .ok (okm, b64Encode (x25519Base a)) ∧
        okm.length = 32 ∧
        hkdfExpand (hkdfExtract b (x25519 a c)) (utf8Bytes ctx) 32 = some okm) := by
  constructor
  · cases hss : parse_hex_exact ssh 32 with
    | error e =>
        simp [derive_session_key, hss, Bind.bind, Except.bind, Except.isOk, Except.toBool]
    | ok a =>
        cases his : parse_hex_exact ish 32 with
        | error e =>
            simp [derive_session_key, hss, his, Bind.bind, Except.bind, Except.isOk,
              Except.toBool]
        | ok b =>
            cases hck : decode_b64_exact ckb 32 with
            | error e =>
                simp [derive_session_key, hss, his, hck, Bind.bind, Except.bind, Except.isOk,
                  Except.toBool]
            | ok c =>
                obtain ⟨heq, _⟩ := hkdfExpand_32 (hkdfExtract b (x25519 a c)) (utf8Bytes ctx)
                simp [derive_session_key, hss, his, hck, heq, SESSION_KEY_LEN, Bind.bind,
                  Except.bind, Except.isOk, Except.toBool]
  · intro a b c hss his hck
    obtain ⟨heq, hlen⟩ := hkdfExpand_32 (hkdfExtract b (x25519 a c)) (utf8Bytes ctx)
    refine ⟨_, ?_, hlen, heq⟩
    simp [derive_session_key, hss, his, hck, SESSION_KEY_LEN, heq, Bind.bind, Except.bind]

theorem c2_derive_session_key_errors_witness :
    parse_hex_exact sampleSecretHex 32 = .ok sampleKeyBytes ∧
    parse_hex_exact samplePairingHex 32 = .ok samplePairingBytes ∧
    decode_b64_exact sampleClientKeyB64 32 = .ok sampleClientKeyBytes ∧
    (∃ okm, derive_session_key sampleSecretHex samplePairingHex sampleClientKeyB64
        "constitute-nvr:id:s1" = .ok (okm, b64Encode (x25519Base sampleKeyBytes)) ∧
      okm.length = 32 ∧
      hkdfExpand (hkdfExtract samplePairingBytes (x25519 sampleKeyBytes sampleClientKeyBytes))
        (utf8Bytes "constitute-nvr:id:s1") 32 = some okm) :=
  ⟨rfl, rfl, rfl,
    (c2_derive_session_key_errors sampleSecretHex samplePairingHex sampleClientKeyB64
      "constitute-nvr:id:s1").2 sampleKeyBytes samplePairingBytes sampleClientKeyBytes
      rfl rfl rfl⟩

set_option maxRecDepth 100000 in
set_option maxHeartbeats 2000000 in
/-- C3: the AEAD round-trip holds for every 32-byte key, 24-byte nonce and
plaintext; replacing the 16 authenticator bytes with any other 16 bytes makes
decryption fail for every key/nonce/plaintext; and at a concrete instance,
changing the single ciphertext body byte to any other value, decrypting with a
different key, or decrypting with a different nonce all fail.  (Failure under
arbitrary key/nonce/byte changes is a cryptographic, not logical, universal;
it is witnessed here generically for the authenticator bytes and exhaustively
at the concrete instance.) -/
theorem c3_aead_roundtrip_tamper :
    (∀ key nonce pt : List Nat, key.length = 32 → nonce.length = 24 →
      (encrypt_payload key nonce pt).bind (decrypt_payload key nonce) = .ok pt) ∧
    (∀ key nonce pt tag2 : List Nat, key.length = 32 → nonce.length = 24 →
      tag2.length = 16 → tag2 ≠ (xchachaEncrypt key nonce [] pt).drop pt.length →
      decrypt_payload key nonce ((xchachaEncrypt key nonce [] pt).take pt.length ++ tag2) =
        .error "decrypt failed") ∧
    (∀ d, d < 256 → d ≠ c3Ct.getD 0 0 →
      (decrypt_payload c3Key c3Nonce (c3Ct.set 0 d)).isOk = false) ∧
    (decrypt_payload c3Key2 c3Nonce c3Ct).isOk = false ∧
    (decrypt_payload c3Key c3Nonce2 c3Ct).isOk = false := by
  refine ⟨?_, ?_, by decide, by decide, by decide⟩
  · intro key nonce pt hk hn
    obtain ⟨hdec, henc⟩ := payload_roundtrip key nonce pt hk hn
    rw [henc]
    simpa [Except.bind] using hdec
  · intro key nonce pt tag2 hk hn ht hne
    exact payload_tag_tamper key nonce pt tag2 hk hn ht hne

theorem chunksOfAux_getElem {α : Type} (k : Nat) (hk : 0 < k) :
    ∀ (fuel : Nat) (l : List α) (i : Nat), l.length ≤ fuel →
      i < (chunksOfAux k fuel l).length →
      (chunksOfAux k fuel l)[i]? = some ((l.drop (k * i)).take k) := by
  intro fuel
  induction fuel with
  | zero =>
      intro l i hl hi
      have hnil : l = [] := List.eq_nil_of_length_eq_zero (Nat.le_zero.mp hl)
      subst hnil
      simp [chunksOfAux] at hi
  | succ n ih =>
      intro l i hl hi
      cases l with
      | nil => simp [chunksOfAux] at hi
      | cons x xs =>
          cases i with
          | zero => simp [chunksOfAux]
          | succ j =>
              simp only [chunksOfAux, List.getElem?_cons_succ]
              rw [ih ((x :: xs).drop k) j
                (by simp only [List.length_drop, List.length_cons] at hl ⊢; omega)
                (by simp only [chunksOfAux, List.length_cons] at hi; omega)]
              rw [List.drop_drop]
              rw [show k + k * j = k * (j + 1) by ring]

theorem chunksOf_getElem {α : Type} (k : Nat) (hk : 0 < k) (l : List α) (i : Nat)
    (hi : i < (chunksOf k l).length) :
    (chunksOf k l)[i]? = some ((l.drop (k * i)).take k) :=
  chunksOfAux_getElem k hk l.length l i (Nat.le_refl _) hi

theorem list_segments_length_le (dir : DirState) (limit : Nat) (segs : List SegmentEntry)
    (h : list_segments dir limit = .ok segs) : segs.length ≤ max limit 1 := by
  cases dir with
  | notFound =>
      simp only [list_segments] at h
      cases h
      simp
  | ioError e => simp [list_segments] at h
  | entries l =>
      simp only [list_segments] at h
      cases h
      simp only [List.length_take]
      omega

theorem segRecentLE_trans : ∀ a b c : SegmentEntry,
    segRecentLE a b → segRecentLE b c → segRecentLE a c := by
  intro a b c hab hbc
  simp only [segRecentLE, decide_eq_true_eq] at *
  omega

theorem segRecentLE_total : ∀ a b : SegmentEntry, segRecentLE a b || segRecentLE b a := by
  intro a b
  simp only [segRecentLE, Bool.or_eq_true, decide_eq_true_eq]
  omega

set_option maxRecDepth 100000 in
theorem c3_aead_roundtrip_tamper_witness :
    ((encrypt_payload c3Key c3Nonce c3Pt).bind (decrypt_payload c3Key c3Nonce) = .ok c3Pt) ∧
    (decrypt_payload c3Key c3Nonce
        ((xchachaEncrypt c3Key c3Nonce [] c3Pt).take c3Pt.length ++ List.replicate 16 0) =
      .error "decrypt failed") :=
  ⟨c3_aead_roundtrip_tamper.1 c3Key c3Nonce c3Pt (by decide) (by decide),
    c3_aead_roundtrip_tamper.2.1 c3Key c3Nonce c3Pt (List.replicate 16 0) (by decide) (by decide)
      (by decide) (by decide)⟩

/-- C4: for a hello whose identity matches and whose device is authorized,
the timestamp check of `validate_hello` accepts exactly when
`|now - ts| ≤ 300` (in either direction): within the window the outcome is
decided solely by the proof check, and outside it the hello is rejected with
the skew error no matter what the proof is. -/
theorem c4_hello_skew_boundary (cfg : ApiCfg) (hello : HelloReq) (now : Nat)
    (hid : hello.identity_id = cfg.identity_id)
    (hdev : cfg.authorized_device_pks = [] ∨ hello.device_pk ∈ cfg.authorized_device_pks) :
    (absDiff now hello.ts ≤ 300 →
      validate_hello now cfg hello =
        match verify_hello_proof cfg.identity_secret_hex hello.identity_id hello.device_pk
            hello.client_key hello.ts hello.proof with
        | .error e => .error e
        | .ok true => .ok ()
        | .ok false => .error "invalid hello proof") ∧
    (300 < absDiff now hello.ts →
      validate_hello now cfg hello = .error "hello timestamp outside allowed skew") := by
  have hdev' : ¬ (cfg.authorized_device_pks ≠ [] ∧
      hello.device_pk ∉ cfg.authorized_device_pks) := by
    rcases hdev with h | h
    · exact fun hcon => hcon.1 h
    · exact fun hcon => hcon.2 h
  constructor
  · intro hskew
    simp only [validate_hello]
    rw [if_neg (by simp [hid]), if_neg hdev', if_neg (by omega)]
  · intro hskew
    simp only [validate_hello]
    rw [if_neg (by simp [hid]), if_neg hdev', if_pos hskew]

theorem c4_hello_skew_boundary_witness :
    (sampleHello 700).identity_id = sampleCfg.identity_id ∧
    (sampleCfg.authorized_device_pks = [] ∨
      (sampleHello 700).device_pk ∈ sampleCfg.authorized_device_pks) ∧
    ((absDiff 1000 (sampleHello 700).ts ≤ 300 →
      validate_hello 1000 sampleCfg (sampleHello 700) =
        match verify_hello_proof sampleCfg.identity_secret_hex (sampleHello 700).identity_id
            (sampleHello 700).device_pk (sampleHello 700).client_key (sampleHello 700).ts
            (sampleHello 700).proof with
        | .error e => .error e
        | .ok true => .ok ()
        | .ok false => .error "invalid hello proof") ∧
    (300 < absDiff 1000 (sampleHello 700).ts →
      validate_hello 1000 sampleCfg (sampleHello 700) =
        .error "hello timestamp outside allowed skew")) :=
  ⟨rfl, Or.inl rfl, c4_hello_skew_boundary sampleCfg (sampleHello 700) 1000 rfl (Or.inl rfl)⟩

/-- C5: in the authenticated loop, every envelope-processing failure on an
inbound text frame (undecodable envelope, wrong type tag, bad nonce/data
base64, wrong nonce length, AEAD failure, undecodable command) produces
exactly one encrypted error reply and leaves the state `authenticated`;
moreover no text frame ever closes the connection. -/
theorem c5_envelope_error_single_reply (D : Decoders) (C : Collab) (key : List Nat)
    (t e : String) (hfail : processEnvelope D key t = .error e) :
    stepAuth D C key (.text t) = (ConnState.authenticated, [Reply.errorReply e]) ∧
    (∀ t2 : String, (stepAuth D C key (.text t2)).1 = ConnState.authenticated) := by
  constructor
  · simp [stepAuth, hfail]
  · intro t2
    cases hpe : processEnvelope D key t2 with
    | error e2 => simp [stepAuth, hpe]
    | ok cmd =>
        cases hc : handle_command C cmd with
        | error e3 => simp [stepAuth, hpe, hc]
        | ok rs => simp [stepAuth, hpe, hc]

theorem c5_envelope_error_single_reply_witness :
    processEnvelope noDecoders ([] : List Nat) "x" = .error "invalid cipher envelope" ∧
    (stepAuth noDecoders noCollab ([] : List Nat) (.text "x") =
      (ConnState.authenticated, [Reply.errorReply "invalid cipher envelope"]) ∧
    (∀ t2 : String,
      (stepAuth noDecoders noCollab ([] : List Nat) (.text t2)).1 =
        ConnState.authenticated)) :=
  ⟨rfl, c5_envelope_error_single_reply noDecoders noCollab ([] : List Nat) "x"
    "invalid cipher envelope" rfl⟩

/-- C6: a `get_segment` command on a payload of `L` bytes emits one
`segment_start` frame carrying `bytes = L`, then exactly `⌈L/49152⌉`
`segment_chunk` frames whose `seq` values are `0, 1, 2, …`, whose `i`-th chunk
is the `i`-th consecutive 49152-byte slice of the payload, and whose base64
data decode back to the chunks and concatenate to the payload, then one
`segment_end` frame. -/
theorem c6_get_segment_stream (sid name : String) (data : List Nat)
    (hdata : ∀ b ∈ data, b < 256) :
    segmentReplies sid name data =
      Reply.segmentStart sid name data.length ::
        (chunksOf 49152 data).enum.map (fun p => Reply.segmentChunk p.1 (b64Encode p.2)) ++
        [Reply.segmentEnd name] ∧
    (chunksOf 49152 data).length = (data.length + 49151) / 49152 ∧
    (chunksOf 49152 data).enum.map Prod.fst = List.range (chunksOf 49152 data).length ∧
    (∀ i, i < (chunksOf 49152 data).length →
      (chunksOf 49152 data)[i]? = some ((data.drop (49152 * i)).take 49152)) ∧
    (∀ c ∈ chunksOf 49152 data, b64Decode (b64Encode c) = some c) ∧
    (chunksOf 49152 data).flatten = data := by
  refine ⟨rfl, ?_, List.enum_map_fst _, ?_, ?_, chunksOf_flatten 49152 (by omega) data⟩
  · have hcl := chunksOf_length 49152 (by omega) data
    omega
  · intro i hi
    exact chunksOf_getElem 49152 (by omega) data i hi
  · intro c hc
    exact b64Decode_b64Encode c (fun x hx => hdata x (chunksOf_mem 49152 (by omega) data c hc x hx))

theorem c6_get_segment_stream_witness :
    (∀ b ∈ [1, 2, 3], b < 256) ∧
    (segmentReplies "cam" "seg.mp4" [1, 2, 3] =
      Reply.segmentStart "cam" "seg.mp4" ([1, 2, 3] : List Nat).length ::
        (chunksOf 49152 [1, 2, 3]).enum.map (fun p => Reply.segmentChunk p.1 (b64Encode p.2)) ++
        [Reply.segmentEnd "seg.mp4"] ∧
    (chunksOf 49152 [1, 2, 3]).length = (([1, 2, 3] : List Nat).length + 49151) / 49152 ∧
    (chunksOf 49152 [1, 2, 3]).enum.map Prod.fst =
      List.range (chunksOf 49152 ([1, 2, 3] : List Nat)).length ∧
    (∀ i, i < (chunksOf 49152 ([1, 2, 3] : List Nat)).length →
      (chunksOf 49152 ([1, 2, 3] : List Nat))[i]? =
        some ((([1, 2, 3] : List Nat).drop (49152 * i)).take 49152)) ∧
    (∀ c ∈ chunksOf 49152 ([1, 2, 3] : List Nat), b64Decode (b64Encode c) = some c) ∧
    (chunksOf 49152 ([1, 2, 3] : List Nat)).flatten = [1, 2, 3]) :=
  ⟨by decide, c6_get_segment_stream "cam" "seg.mp4" [1, 2, 3] (by decide)⟩

/-- C7: `upsert_source` is rejected with a command-level error exactly when the
trimmed source id, RTSP URL, or ONVIF host is empty; on success the stored
record's `segment_secs` is `max(requested, 2)` and its name is the trimmed
source id when the supplied name is blank, the trimmed name otherwise; and a
validation failure yields one encrypted error reply with the connection still
authenticated, not a close. -/
theorem c7_upsert_validation (s : SourceUpsert) :
    ((∃ e, s.into_camera = .error e) ↔
      (rustTrim s.source_id = "" ∨ rustTrim s.rtsp_url = "" ∨ rustTrim s.onvif_host = "")) ∧
    (∀ cam, s.into_camera = .ok cam →
      cam.segment_secs = max s.segment_secs 2 ∧
      cam.name = (if rustTrim s.name = "" then rustTrim s.source_id else rustTrim s.name) ∧
      cam.source_id = rustTrim s.source_id) ∧
    (∀ (D : Decoders) (C : Collab) (key : List Nat) (t : String) (src : SourceUpsert)
      (e : String), processEnvelope D key t = .ok (.upsertSource src) →
      src.into_camera = .error e →
      stepAuth D C key (.text t) = (ConnState.authenticated, [Reply.errorReply e])) := by
  refine ⟨?_, ?_, ?_⟩
  · by_cases h1 : rustTrim s.source_id = ""
    · simp [SourceUpsert.into_camera, h1]
    · by_cases h2 : rustTrim s.rtsp_url = ""
      · simp [SourceUpsert.into_camera, h1, h2]
      · by_cases h3 : rustTrim s.onvif_host = ""
        · simp [SourceUpsert.into_camera, h1, h2, h3]
        · simp [SourceUpsert.into_camera, h1, h2, h3]
  · intro cam hcam
    by_cases h1 : rustTrim s.source_id = ""
    · simp [SourceUpsert.into_camera, h1] at hcam
    · by_cases h2 : rustTrim s.rtsp_url = ""
      · simp [SourceUpsert.into_camera, h1, h2] at hcam
      · by_cases h3 : rustTrim s.onvif_host = ""
        · simp [SourceUpsert.into_camera, h1, h2, h3] at hcam
        · simp only [SourceUpsert.into_camera, if_neg h1, if_neg h2, if_neg h3] at hcam
          cases hcam
          exact ⟨rfl, rfl, rfl⟩
  · intro D C key t src e hpe herr
    simp [stepAuth, hpe, handle_command, herr, Bind.bind, Except.bind]

theorem c7_upsert_validation_witness :
    sampleUpsert.into_camera = .ok ⟨"cam1", "cam1", "host", 80, "rtsp://host/stream",
      "", "", true, 2⟩ ∧
    ((⟨"cam1", "cam1", "host", 80, "rtsp://host/stream", "", "", true, 2⟩ :
        CameraConfig).segment_secs = max sampleUpsert.segment_secs 2 ∧
      (⟨"cam1", "cam1", "host", 80, "rtsp://host/stream", "", "", true, 2⟩ :
        CameraConfig).name =
        (if rustTrim sampleUpsert.name = "" then rustTrim sampleUpsert.source_id
         else rustTrim sampleUpsert.name) ∧
      (⟨"cam1", "cam1", "host", 80, "rtsp://host/stream", "", "", true, 2⟩ :
        CameraConfig).source_id = rustTrim sampleUpsert.source_id) ∧
    (rustTrim badUpsert.source_id = "" ∨ rustTrim badUpsert.rtsp_url = "" ∨
      rustTrim badUpsert.onvif_host = "") ∧
    (∃ e, badUpsert.into_camera = .error e) :=
  ⟨rfl,
    (c7_upsert_validation sampleUpsert).2.1
      ⟨"cam1", "cam1", "host", 80, "rtsp://host/stream", "", "", true, 2⟩ rfl,
    Or.inl rfl,
    (c7_upsert_validation badUpsert).1.mpr (Or.inl rfl)⟩

/-- C8 counterexample: when the per-source segment directory does not exist,
`list_segments` does not fail with a not-found error as the claim states — it
returns `Ok` with an empty listing. -/
theorem c8_notfound_counterexample :
    list_segments DirState.notFound 5 = .ok [] ∧
    ∀ e, list_segments DirState.notFound 5 ≠ .error e :=
  ⟨rfl, fun _ h => Except.noConfusion h⟩

/-- C8 (amended): a missing segment directory yields `Ok []` (not an error);
any other `read_dir` I/O error propagates as an error; and on a readable
directory the entries are sorted by modification time descending and truncated
to at most `max(limit, 1)`. -/
theorem c8_list_segments_amended (limit : Nat) :
    (list_segments DirState.notFound limit = .ok []) ∧
    (∀ msg, list_segments (DirState.ioError msg) limit = .error msg) ∧
    (∀ l segs, list_segments (DirState.entries l) limit = .ok segs →
      segs.Pairwise (fun a b => b.modified_unix ≤ a.modified_unix) ∧
      segs.length ≤ max limit 1) := by
  refine ⟨rfl, fun msg => rfl, ?_⟩
  intro l segs h
  refine ⟨?_, list_segments_length_le _ limit segs h⟩
  simp only [list_segments] at h
  cases h
  have hsorted := @List.sorted_mergeSort SegmentEntry segRecentLE
    (fun a b c hab hbc => segRecentLE_trans a b c hab hbc)
    (fun a b => segRecentLE_total a b)
    ((l.filter (fun e => e.isFile &&
        (strEndsWith e.name ".cnv" || strEndsWith e.name ".mp4"))).map
      (fun e => { name := e.name, bytes := e.size, modified_unix := e.modified.getD 0 }))
  have htake := hsorted.sublist (List.take_sublist (max limit 1) _)
  exact htake.imp (fun h => by simpa [segRecentLE] using h)

theorem c8_list_segments_amended_witness :
    list_segments (DirState.entries sampleDirEntries) 5 =
      .ok [⟨"a.mp4", 100, 50⟩] ∧
    (([⟨"a.mp4", 100, 50⟩] : List SegmentEntry).Pairwise
      (fun a b => b.modified_unix ≤ a.modified_unix) ∧
      ([⟨"a.mp4", 100, 50⟩] : List SegmentEntry).length ≤ max 5 1) := by
  have he1 : (strEndsWith "a.mp4" ".cnv" || strEndsWith "a.mp4" ".mp4") = true := by decide
  have he2 : (strEndsWith "junk.txt" ".cnv" || strEndsWith "junk.txt" ".mp4") = false := by
    decide
  have heq : list_segments (DirState.entries sampleDirEntries) 5 =
      .ok [⟨"a.mp4", 100, 50⟩] := by
    simp [list_segments, sampleDirEntries, List.filter, he1, he2, List.mergeSort_singleton]
  exact ⟨heq, (c8_list_segments_amended 5).2.2 sampleDirEntries [⟨"a.mp4", 100, 50⟩] heq⟩

set_option maxRecDepth 100000 in
set_option maxHeartbeats 2000000 in
/-- C9: `derive_session_key` is a pure function of its four string inputs —
equal inputs give equal `(sessionKey, responderKey)` outputs — and at a
concrete instance, changing only the context string changes the derived
session key. -/
theorem c9_derive_deterministic (a1 b1 c1 d1 a2 b2 c2 d2 : String)
    (ha : a1 = a2) (hb : b1 = b2) (hc : c1 = c2) (hd : d1 = d2) :
    derive_session_key a1 b1 c1 d1 = derive_session_key a2 b2 c2 d2 ∧
    (derive_session_key sampleSecretHex samplePairingHex sampleClientKeyB64
        "constitute-nvr:id:sessA").toOption.map Prod.fst ≠
      (derive_session_key sampleSecretHex samplePairingHex sampleClientKeyB64
        "constitute-nvr:id:sessB").toOption.map Prod.fst := by
  subst ha hb hc hd
  exact ⟨rfl, by decide⟩

theorem c9_derive_deterministic_witness :
    sampleSecretHex = sampleSecretHex ∧
    (derive_session_key sampleSecretHex samplePairingHex sampleClientKeyB64
        "constitute-nvr:id:sessA" =
      derive_session_key sampleSecretHex samplePairingHex sampleClientKeyB64
        "constitute-nvr:id:sessA" ∧
    (derive_session_key sampleSecretHex samplePairingHex sampleClientKeyB64
        "constitute-nvr:id:sessA").toOption.map Prod.fst ≠
      (derive_session_key sampleSecretHex samplePairingHex sampleClientKeyB64
        "constitute-nvr:id:sessB").toOption.map Prod.fst) :=
  ⟨rfl, c9_derive_deterministic sampleSecretHex samplePairingHex sampleClientKeyB64
    "constitute-nvr:id:sessA" sampleSecretHex samplePairingHex sampleClientKeyB64
    "constitute-nvr:id:sessA" rfl rfl rfl rfl⟩

/-- C10: a `list_segments` command with the `limit` field omitted calls the
store with limit 30, and any successful reply carries at most 30 segment
entries. -/
theorem c10_default_limit_30 (C : Collab) (sid : String) :
    handle_command C (.listSegments sid none) =
      (list_segments (C.dirOf sid) 30).map (fun segs => [Reply.listSegmentsOk sid segs]) ∧
    (∀ segs, handle_command C (.listSegments sid none) = .ok [Reply.listSegmentsOk sid segs] →
      segs.length ≤ 30) := by
  constructor
  · cases hls : list_segments (C.dirOf sid) 30 with
    | error e => simp [handle_command, hls, Option.getD, Bind.bind, Except.bind, Except.map]
    | ok segs => simp [handle_command, hls, Option.getD, Bind.bind, Except.bind, Except.map]
  · intro segs h
    cases hls : list_segments (C.dirOf sid) 30 with
    | error e => simp [handle_command, hls, Option.getD, Bind.bind, Except.bind] at h
    | ok segs2 =>
        have hb := list_segments_length_le (C.dirOf sid) 30 segs2 hls
        simp only [handle_command, Option.getD, hls, Bind.bind, Except.bind,
          Except.ok.injEq, List.cons.injEq, Reply.listSegmentsOk.injEq, true_and,
          and_true] at h
        have hss : segs2 = segs := by simpa using h
        subst hss
        omega

theorem c10_default_limit_30_witness :
    handle_command noCollab (.listSegments "cam" none) =
      (list_segments (noCollab.dirOf "cam") 30).map
        (fun segs => [Reply.listSegmentsOk "cam" segs]) ∧
    ([] : List SegmentEntry).length ≤ 30 :=
  ⟨(c10_default_limit_30 noCollab "cam").1,
    (c10_default_limit_30 noCollab "cam").2 [] rfl⟩

end NVR
